import Mathlib

/-! Verification of the ExternalCaller repository
(src/ExternalCaller/src/external_caller.c).

The C function call_external_cdecl_function (lines 84-143) first assembles
an i686 machine-code stub in a local buffer: one push-immediate instruction
per argument (in reverse argument order), a near relative call, an
add-esp stack adjustment and a ret.  It then performs an unconditional,
branch-free sequence of Windows API calls: OpenProcess, VirtualAllocEx,
malloc, WriteProcessMemory, CreateRemoteThread, a zero-timeout
WaitForSingleObject polling loop, GetExitCodeThread, and four releases.

Modelling choices:
* bytes and 32-bit words are Nat, with explicit reduction mod 256
  (assignment to unsigned __int8) and mod 4294967296 (DWORD and
  unsigned __int32 arithmetic) exactly where the C code truncates;
* the stub assembly (lines 87-121) is a byte list built in the order the
  loop writes the buffer;
* the API choreography (lines 94-141) is an event trace parameterised by
  an oracle describing which API calls succeed; the C code never branches
  on any result, so the trace shape is fixed by the oracle alone.
-/

/-- Truncation of an integer to an unsigned 32-bit value, as C conversion
to DWORD or unsigned __int32 performs it. -/
def u32 (x : Int) : Nat := (x % 4294967296).toNat

/-- Lines 87-91: caller_size = (1 + 4) * argc + 1 + 4 + 3 + 1, computed in
32-bit DWORD arithmetic. -/
def callerSize (argc : Nat) : Nat :=
  ((1 + 4) * argc + 1 + 4 + 3 + 1) % 4294967296

/-- The four little-endian bytes that a 32-bit store of v lays out in
memory (the unsigned __int32 writes at lines 105 and 112-113). -/
def le32 (v : Nat) : List Nat :=
  [v % 256, v / 256 % 256, v / 65536 % 256, v / 16777216 % 256]

/-- Reading a 32-bit little-endian value back out of four consecutive
bytes of a buffer, starting at offset off. -/
def readLe32 (bs : List Nat) (off : Nat) : Nat :=
  bs.getD off 0 + 256 * bs.getD (off + 1) 0 + 65536 * bs.getD (off + 2) 0 +
    16777216 * bs.getD (off + 3) 0

/-- Lines 102-106: the loop for i = 0 .. argc - 1 that writes, at offset
5 * i, the byte 0x68 followed by the 32-bit value args[argc - i - 1].
pushLoop args n is the buffer contents after the first n iterations with
argc = args.length. -/
def pushLoop (args : List Nat) : Nat → List Nat
  | 0 => []
  | n + 1 => pushLoop args n ++ 0x68 :: le32 (args.getD (args.length - n - 1) 0)

/-- Lines 112-113: the near-call displacement function_address -
((unsigned __int32)caller_address + argc * 5) - 5, every operation taken
in 32-bit arithmetic. -/
def callDisp (function_address caller_address argc : Nat) : Nat :=
  u32 ((function_address : Int) - (((u32 caller_address : Nat) : Int) +
    (argc : Int) * 5) - 5)

/-- Lines 99-121: the complete contents of the caller_bytes buffer after
all writes, in offset order: the push instructions (offsets 0 .. 5*argc-1),
the call opcode 0xe8 and its displacement (offsets 5*argc .. 5*argc+4),
the add esp encoding 0x83 0xc4 with the single-byte immediate 4 * argc
truncated mod 256 by the unsigned __int8 store (offsets 5*argc+5 ..
5*argc+7), and the ret opcode 0xc3 (offset 5*argc+8). -/
def assembleCaller (function_address caller_address : Nat) (args : List Nat) :
    List Nat :=
  pushLoop args args.length ++
    (0xe8 :: le32 (callDisp function_address caller_address args.length)) ++
    [0x83, 0xc4, 4 * args.length % 256, 0xc3]

/-- Line 105 reads args[argc - i - 1] for each i = 0 .. argc - 1: the list
of indices read from the args array during assembly. -/
def readIndices (argc : Nat) : List Nat :=
  (List.range argc).map fun i => argc - i - 1

/-- Lines 104-105: the byte indices of caller_bytes written by the first n
iterations of the push loop (offsets 5*i and 5*i+1 .. 5*i+4). -/
def pushWriteIndices : Nat → List Nat
  | 0 => []
  | n + 1 => pushWriteIndices n ++ [5 * n, 5 * n + 1, 5 * n + 2, 5 * n + 3, 5 * n + 4]

/-- Lines 104-121: every byte index of caller_bytes written during
assembly: the push loop writes, then offsets 5*argc .. 5*argc+4 (call),
5*argc+5 .. 5*argc+7 (add esp) and 5*argc+8 (ret). -/
def writeIndices (argc : Nat) : List Nat :=
  pushWriteIndices argc ++
    [5 * argc, 5 * argc + 1, 5 * argc + 2, 5 * argc + 3, 5 * argc + 4,
     5 * argc + 5, 5 * argc + 6, 5 * argc + 7, 5 * argc + 8]

/-- The four resources the driver acquires: the process handle
(OpenProcess), the remote allocation (VirtualAllocEx), the local
caller_bytes buffer (malloc) and the remote thread handle
(CreateRemoteThread). -/
inductive Res
  | process
  | remote
  | buffer
  | thread
  deriving DecidableEq

/-- One API-call event of the driver: an acquisition attempt with its
outcome, the WriteProcessMemory call, one WaitForSingleObject call with
its timeout argument and return value, the GetExitCodeThread call, or a
release call together with whether that call actually freed a live
resource. -/
inductive Ev
  | acquire (r : Res) (ok : Bool)
  | writeMem (ok : Bool)
  | poll (timeout ret : Nat)
  | readExit (ok : Bool)
  | release (r : Res) (freed : Bool)
  deriving DecidableEq

/-- Oracle for one invocation: whether OpenProcess (line 94),
VirtualAllocEx (line 95), malloc (line 99), WriteProcessMemory (line 124)
and CreateRemoteThread (line 128) succeed, how many times
WaitForSingleObject(thread_handle, 0) at line 132 returns nonzero
(WAIT_TIMEOUT = 0x102) before it returns 0, and the exit code that
GetExitCodeThread (line 136) stores, none when that call fails. -/
structure OS where
  openOk : Bool
  allocOk : Bool
  mallocOk : Bool
  writeOk : Bool
  threadOk : Bool
  waitFailures : Nat
  exitCode : Option Nat

/-- Line 132: while (WaitForSingleObject(thread_handle, 0) != 0) {} —
one zero-timeout poll per iteration; the argument is the number of polls
returning WAIT_TIMEOUT before the final poll returns 0. -/
def waitLoop : Nat → List Ev
  | 0 => [Ev.poll 0 0]
  | n + 1 => Ev.poll 0 0x102 :: waitLoop n

/-- Lines 94-128 in program order: OpenProcess, VirtualAllocEx, malloc,
WriteProcessMemory, CreateRemoteThread.  The C code never tests a result,
so every call is made whatever the earlier outcomes were. -/
def preEvents (os : OS) : List Ev :=
  [Ev.acquire Res.process os.openOk,
   Ev.acquire Res.remote os.allocOk,
   Ev.acquire Res.buffer os.mallocOk,
   Ev.writeMem os.writeOk,
   Ev.acquire Res.thread os.threadOk]

/-- System-header constant: the valid VirtualFreeEx free type that
decommits pages. -/
def MEM_DECOMMIT : Nat := 0x4000

/-- System-header constant: the valid VirtualFreeEx free type that
releases a region; it additionally requires dwSize = 0. -/
def MEM_RELEASE : Nat := 0x8000

/-- System-header constant: a memory-state value (as reported in
MEMORY_BASIC_INFORMATION), not a valid free type — yet it is what line
140 passes as the dwFreeType argument. -/
def MEM_FREE : Nat := 0x10000

/-- Success condition of VirtualFreeEx(handle, address, dwSize,
dwFreeType) under the documented platform contract: the handle and
address must be valid and the free type must be MEM_DECOMMIT, or
MEM_RELEASE with dwSize = 0; any other free type (MEM_FREE included)
makes the call fail and free nothing. -/
def virtualFreeOk (handleOk addrOk : Bool) (dwSize dwFreeType : Nat) : Bool :=
  handleOk && addrOk &&
    (dwFreeType == MEM_DECOMMIT || (dwFreeType == MEM_RELEASE && dwSize == 0))

/-- Lines 136-141 in program order: GetExitCodeThread,
CloseHandle(thread_handle), free(caller_bytes),
VirtualFreeEx(process_handle, caller_address, caller_size, MEM_FREE),
CloseHandle(process_handle).  All four release calls are unconditional; a
release call frees its resource only when it can: CloseHandle and free on
a null handle or pointer free nothing, and the VirtualFreeEx call carries
the invalid free type MEM_FREE (with dwSize = caller_size, also invalid
for MEM_RELEASE), so by the platform contract it always fails and the
remote block is never freed. -/
def postEvents (argc : Nat) (os : OS) : List Ev :=
  [Ev.readExit os.exitCode.isSome,
   Ev.release Res.thread os.threadOk,
   Ev.release Res.buffer os.mallocOk,
   Ev.release Res.remote
     (virtualFreeOk os.openOk os.allocOk (callerSize argc) MEM_FREE),
   Ev.release Res.process os.openOk]

/-- Lines 84-143: the whole driver run.  The first component is the API
event trace; the second is the returned DWORD: result is initialised to 0
at line 135 and overwritten only when GetExitCodeThread succeeds.  The
trace shape does not depend on argc because the function body contains no
conditional at all; argc enters only as the caller_size argument of the
VirtualFreeEx call. -/
def driverRun (argc : Nat) (os : OS) : List Ev × Nat :=
  (preEvents os ++ waitLoop os.waitFailures ++ postEvents argc os,
    match os.exitCode with
    | some v => v % 4294967296
    | none => 0)

/-- Resources whose acquisition succeeded, in acquisition order. -/
def acqList (t : List Ev) : List Res :=
  t.filterMap fun e =>
    match e with
    | Ev.acquire r true => some r
    | _ => none

/-- Resources actually freed by a release call, in release order. -/
def relList (t : List Ev) : List Res :=
  t.filterMap fun e =>
    match e with
    | Ev.release r true => some r
    | _ => none

/-- The WaitForSingleObject calls occurring in a trace. -/
def pollEvents (t : List Ev) : List Ev :=
  t.filter fun e =>
    match e with
    | Ev.poll _ _ => true
    | _ => false

/-- Oracle in which OpenProcess fails: no process of the given id exists,
so the handle is null; VirtualAllocEx, WriteProcessMemory and
CreateRemoteThread on the null handle fail too, GetExitCodeThread stores
nothing, and the first zero-timeout wait on the null thread handle is
modelled as returning 0 so that the loop terminates. -/
def osOpenFail : OS := ⟨false, false, true, false, false, 0, none⟩

/-- Oracle for a run in which the remote thread is still running at the
first poll: one WAIT_TIMEOUT answer before termination is observed. -/
def osSlowThread : OS := ⟨true, true, true, true, true, 1, some 0⟩

/-- Oracle for a fully successful run. -/
def osAllOk : OS := ⟨true, true, true, true, true, 0, some 0⟩

theorem pushLoop_length (args : List Nat) (n : Nat) :
    (pushLoop args n).length = 5 * n := by
  induction n with
  | zero => rfl
  | succ m ih =>
    simp only [pushLoop, List.length_append, ih, List.length_cons, le32,
      List.length_nil]
    omega

/-- C1: for every Call Request with argument count N, the assembled stub
is exactly 5 * N + 9 bytes long (5 per push, 5 for the call, 3 for the
stack adjustment, 1 for the return; 9 bytes when N = 0), and whenever
that quantity fits a DWORD the caller_size computed at lines 87-91 equals
it. -/
theorem stub_length (f l : Nat) (args : List Nat) :
    (assembleCaller f l args).length = 5 * args.length + 9 ∧
      (5 * args.length + 9 < 4294967296 →
        callerSize args.length = 5 * args.length + 9) := by
  constructor
  · simp only [assembleCaller, List.length_append, pushLoop_length,
      List.length_cons, le32, List.length_nil]
  · intro h
    simp only [callerSize]
    omega

/-- Witness for C1 at the zero-argument input. -/
theorem stub_length_witness :
    (assembleCaller 0 0 ([] : List Nat)).length = 5 * ([] : List Nat).length + 9 ∧
      callerSize ([] : List Nat).length = 5 * ([] : List Nat).length + 9 :=
  ⟨(stub_length 0 0 []).1, (stub_length 0 0 []).2 (by decide)⟩

theorem pushLoop_getD (args : List Nat) (d n i j : Nat) (hi : i < n) (hj : j < 5) :
    (pushLoop args n).getD (5 * i + j) d =
      (0x68 :: le32 (args.getD (args.length - i - 1) 0)).getD j d := by
  induction n with
  | zero => omega
  | succ m ih =>
    rcases Nat.lt_or_ge i m with h | h
    · have hlt : 5 * i + j < (pushLoop args m).length := by
        rw [pushLoop_length]; omega
      rw [pushLoop, List.getD_append _ _ _ _ hlt]
      exact ih h
    · have him : i = m := by omega
      subst him
      have hge : (pushLoop args i).length ≤ 5 * i + j := by
        rw [pushLoop_length]; omega
      rw [pushLoop, List.getD_append_right _ _ _ _ hge]
      rw [pushLoop_length]
      congr 1
      omega

theorem assembleCaller_getD_push (f l : Nat) (args : List Nat) (i j : Nat)
    (hi : i < args.length) (hj : j < 5) :
    (assembleCaller f l args).getD (5 * i + j) 0 =
      (0x68 :: le32 (args.getD (args.length - i - 1) 0)).getD j 0 := by
  have hlt : 5 * i + j < (pushLoop args args.length).length := by
    rw [pushLoop_length]; omega
  rw [assembleCaller, List.append_assoc, List.getD_append _ _ _ _ hlt]
  exact pushLoop_getD args 0 args.length i j hi hj

theorem assembleCaller_getD_tail (f l : Nat) (args : List Nat) (k : Nat) :
    (assembleCaller f l args).getD (5 * args.length + k) 0 =
      ((0xe8 :: le32 (callDisp f l args.length)) ++
        [0x83, 0xc4, 4 * args.length % 256, 0xc3]).getD k 0 := by
  have hge : (pushLoop args args.length).length ≤ 5 * args.length + k := by
    rw [pushLoop_length]; omega
  rw [assembleCaller, List.append_assoc, List.getD_append_right _ _ _ _ hge]
  rw [pushLoop_length]
  congr 1
  omega

/-- C2: for every i < N the stub byte at offset 5 * i is the push opcode
0x68 and the 32-bit immediate at offset 5 * i + 1 is the raw value of
argument index N - 1 - i, so the last argument is pushed first and the
first argument is pushed last (lines 102-106). -/
theorem push_sequence_reversed (f l : Nat) (args : List Nat) (i : Nat)
    (hi : i < args.length) (h32 : ∀ a ∈ args, a < 4294967296) :
    (assembleCaller f l args).getD (5 * i) 0 = 0x68 ∧
      readLe32 (assembleCaller f l args) (5 * i + 1) =
        args.getD (args.length - 1 - i) 0 := by
  have hidx : args.length - i - 1 = args.length - 1 - i := by omega
  have hv : args.getD (args.length - i - 1) 0 < 4294967296 := by
    have hlt : args.length - i - 1 < args.length := by omega
    rw [List.getD_eq_getElem args 0 hlt]
    exact h32 _ (List.getElem_mem hlt)
  constructor
  · have h0 := assembleCaller_getD_push f l args i 0 hi (by omega)
    rw [Nat.add_zero] at h0
    rw [h0]
    rfl
  · have h1 := assembleCaller_getD_push f l args i 1 hi (by omega)
    have h2 := assembleCaller_getD_push f l args i 2 hi (by omega)
    have h3 := assembleCaller_getD_push f l args i 3 hi (by omega)
    have h4 := assembleCaller_getD_push f l args i 4 hi (by omega)
    rw [readLe32]
    have e2 : 5 * i + 1 + 1 = 5 * i + 2 := by omega
    have e3 : 5 * i + 1 + 2 = 5 * i + 3 := by omega
    have e4 : 5 * i + 1 + 3 = 5 * i + 4 := by omega
    rw [e2, e3, e4, h1, h2, h3, h4, hidx] at *
    simp only [le32, List.getD_cons_succ, List.getD_cons_zero]
    rw [← hidx]
    omega

/-- Witness for C2: with arguments [10, 20] the first stub byte is the
push opcode and the first pushed immediate is 20, the last argument. -/
theorem push_sequence_reversed_witness :
    (assembleCaller 0 0 [10, 20]).getD (5 * 0) 0 = 0x68 ∧
      readLe32 (assembleCaller 0 0 [10, 20]) (5 * 0 + 1) =
        [10, 20].getD ([10, 20].length - 1 - 0) 0 :=
  push_sequence_reversed 0 0 [10, 20] 0 (by decide) (by decide)

/-- C3: the 32-bit displacement stored after the call opcode at offset
5 * N equals function_address - (load_address + 5 * N) - 5 taken modulo
2 ^ 32, i.e. the target relative to the address just past the 5-byte call
instruction (lines 112-113). -/
theorem call_displacement_correct (f l : Nat) (args : List Nat) :
    readLe32 (assembleCaller f l args) (5 * args.length + 1) =
      u32 ((f : Int) - ((l : Int) + 5 * (args.length : Int)) - 5) := by
  have h1 := assembleCaller_getD_tail f l args 1
  have h2 := assembleCaller_getD_tail f l args 2
  have h3 := assembleCaller_getD_tail f l args 3
  have h4 := assembleCaller_getD_tail f l args 4
  rw [readLe32]
  have e2 : 5 * args.length + 1 + 1 = 5 * args.length + 2 := by omega
  have e3 : 5 * args.length + 1 + 2 = 5 * args.length + 3 := by omega
  have e4 : 5 * args.length + 1 + 3 = 5 * args.length + 4 := by omega
  rw [e2, e3, e4, h1, h2, h3, h4]
  simp only [le32, List.cons_append, List.getD_cons_succ, List.getD_cons_zero]
  simp only [callDisp, u32]
  omega

/-- C4 counterexample: with 64 arguments the byte stored at offset
5 * 64 + 7 is 0, not 4 * 64 = 256: the unsigned __int8 store at line 118
truncates the stack adjustment modulo 256. -/
theorem stack_adjust_byte_cex :
    (assembleCaller 0 0 (List.replicate 64 0)).getD (5 * 64 + 7) 0 ≠ 4 * 64 := by
  decide

/-- C4 amended: for every argument count N the stack-adjustment immediate
at offset 5 * N + 7 is 4 * N reduced modulo 256 (the width of the imm8
field of add esp), which equals 4 * N exactly when 4 * N < 256, in
particular 0 when N = 0 (lines 116-118). -/
theorem stack_adjust_byte (f l : Nat) (args : List Nat) :
    (assembleCaller f l args).getD (5 * args.length + 7) 0 =
      4 * args.length % 256 := by
  have h7 := assembleCaller_getD_tail f l args 7
  rw [h7]
  rfl

theorem pushWriteIndices_lt (n k : Nat) (hk : k ∈ pushWriteIndices n) :
    k < 5 * n := by
  induction n with
  | zero => simp [pushWriteIndices] at hk
  | succ m ih =>
    rw [pushWriteIndices] at hk
    rcases List.mem_append.1 hk with h | h
    · have := ih h
      omega
    · simp only [List.mem_cons, List.not_mem_nil, or_false] at h
      rcases h with rfl | rfl | rfl | rfl | rfl <;> omega

/-- C9: during stub assembly every read of the args array is at an index
below argc and every write into caller_bytes is at a byte index below
5 * argc + 9, the size of the stub buffer (lines 99-121). -/
theorem assembly_accesses_in_bounds (argc : Nat) :
    (∀ k ∈ readIndices argc, k < argc) ∧
      (∀ k ∈ writeIndices argc, k < 5 * argc + 9) := by
  constructor
  · intro k hk
    simp only [readIndices, List.mem_map, List.mem_range] at hk
    obtain ⟨i, hi, rfl⟩ := hk
    omega
  · intro k hk
    rw [writeIndices] at hk
    rcases List.mem_append.1 hk with h | h
    · have := pushWriteIndices_lt argc k h
      omega
    · simp only [List.mem_cons, List.not_mem_nil, or_false] at h
      rcases h with rfl | rfl | rfl | rfl | rfl | rfl | rfl | rfl | rfl <;> omega

/-- Witness for C9 with one argument: read index 0 is below 1 and write
index 13 (the ret byte) is below 5 * 1 + 9. -/
theorem assembly_accesses_in_bounds_witness :
    (0 : Nat) < 1 ∧ (13 : Nat) < 5 * 1 + 9 :=
  ⟨(assembly_accesses_in_bounds 1).1 0 (by decide),
   (assembly_accesses_in_bounds 1).2 13 (by decide)⟩

/-- C5: when OpenProcess fails the code does not stop: the trace of the
run still contains the VirtualAllocEx attempt (and every later call), and
the function returns 0 with no error indication of any kind — there is no
TargetUnavailable outcome in the code. -/
theorem open_failure_not_handled :
    Ev.acquire Res.remote false ∈ (driverRun 0 osOpenFail).1 ∧
      (driverRun 0 osOpenFail).2 = 0 := by
  decide

/-- C6: the equal-releases-and-acquires claim fails on the code: in a
fully successful run all four acquisitions succeed, but only three
release calls take effect — VirtualFreeEx at line 140 passes the invalid
free type MEM_FREE (0x10000, a memory-state constant; the valid free
types are MEM_DECOMMIT and MEM_RELEASE, and MEM_RELEASE would further
require dwSize = 0, not caller_size), so that call always fails and the
remote block leaks.  The three effective releases do happen in reverse
acquisition order. -/
theorem remote_block_leaks :
    acqList (driverRun 0 osAllOk).1 =
        [Res.process, Res.remote, Res.buffer, Res.thread] ∧
      relList (driverRun 0 osAllOk).1 = [Res.thread, Res.buffer, Res.process] ∧
      virtualFreeOk true true (callerSize 0) MEM_FREE = false := by
  decide

theorem pollEvents_append (t₁ t₂ : List Ev) :
    pollEvents (t₁ ++ t₂) = pollEvents t₁ ++ pollEvents t₂ :=
  List.filter_append t₁ t₂

theorem pollEvents_waitLoop (n : Nat) :
    pollEvents (waitLoop n) =
      List.replicate n (Ev.poll 0 0x102) ++ [Ev.poll 0 0] := by
  induction n with
  | zero => rfl
  | succ m ih =>
    rw [waitLoop, pollEvents] at *
    simp only [List.filter_cons, List.replicate_succ, List.cons_append]
    rw [ih]
    simp

/-- C7 counterexample: in a run whose remote thread has not terminated at
the first check, the code performs two WaitForSingleObject calls, both
with timeout argument 0 — repeated zero-timeout polling, not one blocking
wait (line 132). -/
theorem wait_is_polling_cex :
    pollEvents (driverRun 0 osSlowThread).1 =
      [Ev.poll 0 0x102, Ev.poll 0 0] := by
  decide

/-- C7 amended: the wait at line 132 is a busy-spin polling loop: every
WaitForSingleObject call carries timeout 0, and a run in which the thread
reports not-terminated n times performs exactly n + 1 such zero-timeout
calls; no single blocking wait occurs. -/
theorem wait_is_polling (argc : Nat) (os : OS) :
    pollEvents (driverRun argc os).1 =
      List.replicate os.waitFailures (Ev.poll 0 0x102) ++ [Ev.poll 0 0] := by
  have h1 : (driverRun argc os).1 =
      preEvents os ++ (waitLoop os.waitFailures ++ postEvents argc os) := rfl
  rw [h1, pollEvents_append, pollEvents_append, pollEvents_waitLoop]
  have hpre : pollEvents (preEvents os) = [] := by
    simp [preEvents, pollEvents, List.filter]
  have hpost : pollEvents (postEvents argc os) = [] := by
    simp [postEvents, pollEvents, List.filter]
  rw [hpre, hpost]
  simp

/-- C8 counterexample: with the argument count that the negative atoi
result -1 becomes after conversion to DWORD (line 179), the driver still
opens the target process: foreign-process interaction occurs and nothing
is rejected. -/
theorem negative_argc_cex :
    Ev.acquire Res.process true ∈ (driverRun (u32 (-1)) osAllOk).1 := by
  decide

/-- C8 amended: no validation of the argument count exists anywhere: a
negative count is converted modulo 2 ^ 32 (-1 becomes 4294967295), the
DWORD size computation of lines 87-91 then wraps to 4, and the driver
still performs the process-opening call of line 94 — no InvalidRequest
outcome is present in the code. -/
theorem negative_argc_processed (os : OS) :
    Ev.acquire Res.process os.openOk ∈ (driverRun (u32 (-1)) os).1 ∧
      u32 (-1) = 4294967295 ∧ callerSize (u32 (-1)) = 4 := by
  refine ⟨?_, by decide, by decide⟩
  have h1 : (driverRun (u32 (-1)) os).1 =
      preEvents os ++ (waitLoop os.waitFailures ++ postEvents (u32 (-1)) os) := rfl
  rw [h1]
  exact List.mem_append_left _ (List.mem_cons_self _ _)

/-- C10: the returned value is initialised to 0 and only overwritten by a
successful GetExitCodeThread, so a run whose exit-code read fails returns
0 — indistinguishable from a run whose thread genuinely exited with 0
(lines 135-142). -/
theorem result_zero_on_failed_read (argc₁ argc₂ : Nat) (os₁ os₂ : OS)
    (h₁ : os₁.exitCode = none) (h₂ : os₂.exitCode = some 0) :
    (driverRun argc₁ os₁).2 = 0 ∧
      (driverRun argc₁ os₁).2 = (driverRun argc₂ os₂).2 := by
  simp [driverRun, h₁, h₂]

/-- Witness for C10 with concrete oracles: a failed exit-code read and a
genuine exit code 0 both yield return value 0. -/
theorem result_zero_on_failed_read_witness :
    (driverRun 0 ⟨true, true, true, true, true, 0, none⟩).2 = 0 ∧
      (driverRun 0 ⟨true, true, true, true, true, 0, none⟩).2 =
        (driverRun 0 ⟨true, true, true, true, true, 0, some 0⟩).2 :=
  result_zero_on_failed_read 0 0 ⟨true, true, true, true, true, 0, none⟩
    ⟨true, true, true, true, true, 0, some 0⟩ rfl rfl
